import Mathlib

/-!
Verification of the Signal Desk ("core-perigee") lifecycle state machine and
webhook orchestration layer.

The TypeScript source is shallowly embedded: JSON payloads become the `Json`
inductive below; the persistent store becomes explicit lists of records;
each HTTP route handler becomes a pure function from (request, store,
external-call outcome) to (response, store).  Outbound HTTP calls are
parameterised by a `FetchOutcome` argument so both the success and the
failure paths of the dispatch are covered.
-/

namespace CorePerigee

/-- JSON values, as produced by `request.json()` / `JSON.parse`.
Objects are represented as association lists of key/value pairs; a
well-formed JavaScript object has pairwise-distinct keys. -/
inductive Json where
  | null : Json
  | bool (b : Bool) : Json
  | num (n : Int) : Json
  | str (s : String) : Json
  | arr (xs : List Json) : Json
  | obj (kvs : List (String × Json)) : Json

namespace Json

/-- JavaScript truthiness of a value. -/
def truthy : Json → Bool
  | .null => false
  | .bool b => b
  | .num n => n != 0
  | .str s => !s.isEmpty
  | .arr _ => true
  | .obj _ => true

/-- JavaScript `typeof v === "object"` (true for objects, arrays and null). -/
def isObjectType : Json → Bool
  | .null => true
  | .arr _ => true
  | .obj _ => true
  | _ => false

/-- JavaScript property read `v[k]`; `none` models `undefined`.  Reading a
named (non-index) property off an array, a number, a string or a boolean
yields `undefined`; reading off `null` throws, which callers model
separately. -/
def getField : Json → String → Option Json
  | .obj kvs, k => (kvs.find? (fun p => p.1 == k)).map Prod.snd
  | _, _ => none

/-- The key/value pairs contributed by `...v` inside an object literal.
Spreading an array contributes its elements under their index keys;
spreading `null`, `undefined`, a number or a boolean contributes nothing. -/
def spreadFields : Json → List (String × Json)
  | .obj kvs => kvs
  | .arr xs => (List.range xs.length).zip xs |>.map (fun p => (toString p.1, p.2))
  | _ => []

/-- JavaScript object-literal merge `{...a, ...b}`: keys of `a` keep their
position but take `b`'s value when `b` also binds them; keys only in `b`
are appended in order. -/
def mergeJs (a b : List (String × Json)) : List (String × Json) :=
  (a.map (fun p => (p.1, (((b.find? (fun q => q.1 == p.1)).map Prod.snd).getD p.2))))
    ++ b.filter (fun q => !(a.any (fun p => p.1 == q.1)))

end Json

/-- `extractN8nData` from `src/src/app/api/signals/receive/route.ts` (and the
identical copy in the unnamed receive route): unwraps the flat /
`output`-nested / array-wrapped external reply shapes.  The `Except.error`
case models the `TypeError` thrown when the first array element is `null`
(property access on `null`). -/
def extractN8nData (body : Json) : Except Unit Json :=
  match body with
  | .arr (x :: _) =>
    match x with
    | .null => .error ()
    | _ =>
      match x.getField "output" with
      | some out => if out.truthy then .ok out else .ok x
      | none => .ok x
  | _ =>
    if body.truthy && body.isObjectType then
      match body with
      | .obj kvs =>
        match Json.getField (.obj kvs) "output" with
        | some out =>
          if out.truthy && out.isObjectType then
            .ok (.obj (Json.mergeJs kvs (Json.spreadFields out)))
          else .ok (.obj kvs)
        | none => .ok (.obj kvs)
      | other => .ok other
    else .ok (.obj [])

/-- The merge described by the claim's words: the outer object's fields
merged with the `output` object's fields, `output` fields taking precedence
on key collision, the unwrapped `output` key itself dropped (as the claim's
example `\x7boutput:\x7ba:1\x7d, b:2\x7d ↦ \x7ba:1, b:2\x7d` shows). -/
def mergeClaim (outer inner : List (String × Json)) : List (String × Json) :=
  outer.filter (fun p => p.1 != "output" && !(inner.any (fun q => q.1 == p.1)))
    ++ inner

/-- The Response Normalizer as the claim states it: if the value is an
array, its first element is taken (an empty array yields the empty
canonical record); then, if the resulting object has an `output` field that
is itself an object, the outer fields are merged with the `output` fields,
`output` taking precedence; a flat object is returned unchanged. -/
def normalizeClaim (v : Json) : Json :=
  let w : Json :=
    match v with
    | .arr [] => .obj []
    | .arr (x :: _) => x
    | other => other
  match w with
  | .obj kvs =>
    match Json.getField (.obj kvs) "output" with
    | some (.obj inner) => .obj (mergeClaim kvs inner)
    | _ => .obj kvs
  | other => other

/-- The normalizer as the code actually behaves (the amended claim): a
non-empty array contributes only its first element's truthy `output` value
(outer fields are dropped, no merge; a falsy or missing `output` yields the
first element itself; a `null` first element is a thrown error); an empty
array survives unchanged, carrying no fields; a non-array object with a
truthy object-typed `output` field is merged via the JavaScript spread
`\x7b...outer, ...output\x7d`, which keeps the `output` key itself; any other
object is unchanged; non-objects yield the empty record. -/
def normalizeAmended (v : Json) : Except Unit Json :=
  match v with
  | .arr (.null :: _) => .error ()
  | .arr (x :: _) =>
    match x.getField "output" with
    | some out => if out.truthy then .ok out else .ok x
    | none => .ok x
  | .arr [] => .ok (.arr [])
  | .obj kvs =>
    match Json.getField (.obj kvs) "output" with
    | some out =>
      if out.truthy && out.isObjectType then
        .ok (.obj (Json.mergeJs kvs (Json.spreadFields out)))
      else .ok (.obj kvs)
    | none => .ok (.obj kvs)
  | _ => .ok (.obj [])

/-! ## Signal store and statuses (`src/src/lib/constants.ts`, Prisma `Signal`) -/

namespace SIGNAL_STATUS

def UNREAD : String := "unread"

def PROCESSING : String := "processing"

def REVIEWED : String := "reviewed"

def PROCESSED : String := "processed"

def ARCHIVED : String := "archived"

/-- Modelled from the spec: the `clustered` member of the Signal status
enum.  The snapshot of `src/src/lib/constants.ts` lacks this member even
though `src/src/app/api/cluster/route.ts` reads `SIGNAL_STATUS.CLUSTERED`;
the spec's state machine (§4.4) names the state `clustered`. -/
def CLUSTERED : String := "clustered"

end SIGNAL_STATUS

/-- A row of the Prisma `Signal` table.  `tags` holds the JSON-serialized
tag array exactly as stored; timestamps are epoch milliseconds. -/
structure Signal where
  id : String
  title : String
  content : String
  summary : Option String
  source : Option String
  sourceUrl : Option String
  rawContent : Option String
  tags : String
  status : String
  createdAt : Nat
deriving DecidableEq, Repr

/-- `prisma.signal.findUnique`-style lookup by id. -/
def findSignal (db : List Signal) (id : String) : Option Signal :=
  db.find? (fun s => s.id == id)

/-- `prisma.signal.update` of the `status` column for one id (no-op when
the id is absent; callers establish presence). -/
def updateSignalStatus (db : List Signal) (id status : String) : List Signal :=
  db.map (fun s => if s.id == id then { s with status := status } else s)

/-! ## Outbound Dispatcher (`src/src/app/capture/page.tsx`, webhooks lib) -/

/-- The `WebhookResult` interface of `src/src/lib/types.ts`; `data` carries
the normalized reply payload when one was parsed. -/
structure WebhookResult where
  success : Bool
  error : Option String
  data : Option Json

/-- Outcome of one `fetch` to a webhook URL: the request errors out
(network failure / abort), or a response arrives with `ok` status flag and
a reply payload. -/
inductive FetchOutcome where
  | netError : FetchOutcome
  | resp (ok : Bool) (body : Json) : FetchOutcome

/-- `triggerGenerate` (webhooks lib): returns a not-configured failure when
the `generate` webhook URL is absent; otherwise issues the POST and maps a
non-2xx response or a network error to `success := false`.  Every failure
is reported through the returned record — the function never throws. -/
def triggerGenerate (cfg : Option String) (f : FetchOutcome) : WebhookResult :=
  match cfg with
  | none =>
    { success := false
      error := some "Generate webhook URL not configured. Please set up in Settings."
      data := none }
  | some _ =>
    match f with
    | .netError => { success := false, error := some "Failed to trigger generation", data := none }
    | .resp ok _ =>
      if ok then { success := true, error := none, data := none }
      else { success := false, error := some "Webhook returned non-2xx", data := none }

/-- `triggerCluster` (webhooks lib): same shape as `triggerGenerate`. -/
def triggerCluster (cfg : Option String) (f : FetchOutcome) : WebhookResult :=
  match cfg with
  | none =>
    { success := false
      error := some "Cluster webhook URL not configured. Please set up in Settings."
      data := none }
  | some _ =>
    match f with
    | .netError => { success := false, error := some "Failed to trigger clustering", data := none }
    | .resp ok _ =>
      if ok then { success := true, error := none, data := none }
      else { success := false, error := some "Webhook returned non-2xx", data := none }

/-- `triggerPublish` (webhooks lib): on a 2xx response it returns
`success := true` without reading the response body, so `data` is `none`
on every path — the reply payload `body` is received and discarded. -/
def triggerPublish (cfg : Option String) (f : FetchOutcome) : WebhookResult :=
  match cfg with
  | none =>
    { success := false
      error := some "Publish webhook URL not configured. Please set up in Settings."
      data := none }
  | some _ =>
    match f with
    | .netError => { success := false, error := some "Failed to trigger publish", data := none }
    | .resp ok _ =>
      if ok then { success := true, error := none, data := none }
      else { success := false, error := some "Webhook returned non-2xx", data := none }

/-! ## Cluster trigger (`src/src/app/api/cluster/route.ts` POST) -/

/-- Response of the cluster trigger: the zero-signals no-op, the 502
dispatch-failure error, or the success acknowledgement with the count. -/
inductive ClusterResponse where
  | noop : ClusterResponse
  | error502 (e : Option String) : ClusterResponse
  | ok (count : Nat) : ClusterResponse
deriving DecidableEq, Repr

/-- POST `/api/cluster`: gathers every Signal in `reviewed` status, returns
a no-op message when there are none, dispatches the batch to the `cluster`
webhook, propagates a dispatch failure as a 502 without touching the
store, and on success batch-updates exactly the gathered ids to
`clustered`.  `cfg`/`f` parameterise the webhook configuration and the
HTTP outcome of the dispatch. -/
def clusterPOST (cfg : Option String) (f : FetchOutcome) (db : List Signal) :
    ClusterResponse × List Signal :=
  let signals := db.filter (fun s => s.status == SIGNAL_STATUS.REVIEWED)
  if signals.isEmpty then (.noop, db)
  else
    let result := triggerCluster cfg f
    if !result.success then (.error502 result.error, db)
    else
      let ids := signals.map Signal.id
      (.ok signals.length,
       db.map (fun s => if ids.contains s.id then { s with status := SIGNAL_STATUS.CLUSTERED } else s))

/-! ## Review action (`src/src/app/api/signals/route.ts` PATCH, the version
importing `triggerGenerate`) -/

/-- Body of the signals PATCH request (the optional `thought` attachment
only writes to the Thought table and is not modelled here). -/
structure SignalPatchBody where
  id : String
  status : String
deriving DecidableEq, Repr

/-- Response of the signals PATCH handler. -/
inductive SignalPatchResponse where
  | badRequest : SignalPatchResponse
  | serverError : SignalPatchResponse
  | ok : SignalPatchResponse
deriving DecidableEq, Repr

/-- PATCH `/api/signals`: validates `id`/`status` truthiness, updates the
Signal's status, and — when the new status is `reviewed` — calls
`triggerGenerate` for this single Signal and then updates the status to
`processed`.  The handler never reads the dispatch result: since
`triggerGenerate` reports failure by return value and never throws, the
surrounding try/catch cannot intercept a failed dispatch and the
`processed` update runs unconditionally after the call returns. -/
def signalsPATCH (cfg : Option String) (f : FetchOutcome) (body : SignalPatchBody)
    (db : List Signal) : SignalPatchResponse × List Signal :=
  if body.id.isEmpty || body.status.isEmpty then (.badRequest, db)
  else
    match findSignal db body.id with
    | none => (.serverError, db)
    | some _ =>
      let db1 := updateSignalStatus db body.id body.status
      if body.status == SIGNAL_STATUS.REVIEWED then
        let _result := triggerGenerate cfg f
        let db2 := updateSignalStatus db1 body.id SIGNAL_STATUS.PROCESSED
        (.ok, db2)
      else (.ok, db1)

/-- Status of the signal with the given id, if present. -/
def signalStatus (db : List Signal) (id : String) : Option String :=
  (findSignal db id).map Signal.status

/-! ## Inbound Reconciler (`src/unnamed/part_010`, POST `/api/signals/receive`
with deduplication) -/

/-- Four-digit lowercase hex rendering of a code point, for JSON string
escapes of control characters. -/
def hex4 (n : Nat) : String :=
  let digit := fun (k : Nat) => ("0123456789abcdef".toList.getD k '0')
  String.mk [digit (n / 4096 % 16), digit (n / 256 % 16), digit (n / 16 % 16), digit (n % 16)]

/-- `JSON.stringify` escaping of one character inside a string literal. -/
def jsonEscapeChar (c : Char) : String :=
  if c = '"' then "\\\""
  else if c = '\\' then "\\\\"
  else if c = '\n' then "\\n"
  else if c = '\r' then "\\r"
  else if c = '\t' then "\\t"
  else if c = '\x08' then "\\b"
  else if c = '\x0c' then "\\f"
  else if c.toNat < 32 then "\\u" ++ hex4 c.toNat
  else String.singleton c

/-- `JSON.stringify` escaping of a whole string body. -/
def jsonEscape (s : String) : String :=
  String.join (s.toList.map jsonEscapeChar)

mutual

/-- `JSON.stringify` (as used for the Signal `tags` column). -/
def jsonStringify : Json → String
  | .null => "null"
  | .bool b => cond b "true" "false"
  | .num n => toString n
  | .str s => "\"" ++ jsonEscape s ++ "\""
  | .arr xs => "[" ++ jsonStringifyList xs ++ "]"
  | .obj kvs => "\x7b" ++ jsonStringifyKvs kvs ++ "\x7d"

/-- Comma-joined serialization of array elements. -/
def jsonStringifyList : List Json → String
  | [] => ""
  | [x] => jsonStringify x
  | x :: y :: rest => jsonStringify x ++ "," ++ jsonStringifyList (y :: rest)

/-- Comma-joined serialization of object members. -/
def jsonStringifyKvs : List (String × Json) → String
  | [] => ""
  | [(k, v)] => "\"" ++ jsonEscape k ++ "\":" ++ jsonStringify v
  | (k, v) :: p :: rest =>
    "\"" ++ jsonEscape k ++ "\":" ++ jsonStringify v ++ "," ++ jsonStringifyKvs (p :: rest)

end

mutual

/-- JavaScript string coercion as performed by template interpolation. -/
def jsToDisplayString : Json → String
  | .null => "null"
  | .bool b => cond b "true" "false"
  | .num n => toString n
  | .str s => s
  | .arr xs => jsArrDisplay xs
  | .obj _ => "[object Object]"

/-- `Array.prototype.toString`: elements joined with commas, `null`
rendering as the empty string inside a join. -/
def jsArrDisplay : List Json → String
  | [] => ""
  | [x] => match x with | .null => "" | y => jsToDisplayString y
  | x :: y :: rest =>
    (match x with | .null => "" | z => jsToDisplayString z) ++ "," ++ jsArrDisplay (y :: rest)

end

/-- Truthiness of a property of the canonical record (`!data.summary`
style tests). -/
def truthyField (d : Json) (k : String) : Bool :=
  (d.getField k).elim false Json.truthy

/-- A truthy string-typed property of the canonical record, per the
`N8nResponse` interface which declares these fields as optional strings
(`none` for an absent, empty or non-string value). -/
def jsStrField (d : Json) (k : String) : Option String :=
  match d.getField k with
  | some (.str s) => if s.isEmpty then none else some s
  | _ => none

/-- A string-typed property that may legitimately be empty (`data.summary`
is stored verbatim when present). -/
def strFieldAny (d : Json) (k : String) : Option String :=
  match d.getField k with
  | some (.str s) => some s
  | _ => none

/-- `formatN8nDataToMarkdown` from `src/src/lib/formatters.ts`: renders the
structured extraction fields as heading-delimited Markdown sections in the
fixed order Summary, Key Insights, Actionable Takeaways, Sentiment, list
fields bullet-joined.  List sections require a non-empty array value
(`data.key_insights?.length`). -/
def formatN8nDataToMarkdown (d : Json) : String :=
  let strSection := fun (k heading : String) =>
    match d.getField k with
    | some v => if v.truthy then ["## " ++ heading ++ "\n" ++ jsToDisplayString v] else []
    | none => []
  let listSection := fun (k heading : String) =>
    match d.getField k with
    | some (.arr (x :: xs)) =>
      ["## " ++ heading ++ "\n"
        ++ String.intercalate "\n" ((x :: xs).map (fun i => "• " ++ jsToDisplayString i))]
    | _ => []
  String.intercalate "\n\n"
    (strSection "summary" "Summary"
      ++ listSection "key_insights" "Key Insights"
      ++ listSection "actionable_takeaways" "Actionable Takeaways"
      ++ strSection "sentiment" "Sentiment")

/-- Title resolution for the receive route:
`data.title || data.summary?.substring(0, TITLE_MAX_LENGTH)`, `none` when
both fall through (the fixed fallback differs between the update and the
create paths and is applied by the callers). -/
def receiveTitle (d : Json) : Option String :=
  match jsStrField d "title" with
  | some t => some t
  | none =>
    match strFieldAny d "summary" with
    | some s => if (s.take 100).isEmpty then none else some (s.take 100)
    | none => none

/-- Content resolution: `data.content || formatN8nDataToMarkdown(data)`. -/
def receiveContent (d : Json) : String :=
  match jsStrField d "content" with
  | some c => c
  | none => formatN8nDataToMarkdown d

/-- Serialized tags from `data.topics` when the property is present and
truthy (`data.topics ? JSON.stringify(data.topics) : undefined`). -/
def receiveTags (d : Json) : Option String :=
  match d.getField "topics" with
  | some v => if v.truthy then some (jsonStringify v) else none
  | none => none

/-- The in-place placeholder update of the receive route: absent payload
fields leave the stored column unchanged (Prisma ignores `undefined`), and
the status is advanced to `unread`. -/
def applyReceiveUpdate (d : Json) (s : Signal) : Signal :=
  { s with
    title := (receiveTitle d).getD s.title
    content := receiveContent d
    summary := match strFieldAny d "summary" with | some v => some v | none => s.summary
    rawContent := match strFieldAny d "rawContent" with | some v => some v | none => s.rawContent
    tags := (receiveTags d).getD s.tags
    status := SIGNAL_STATUS.UNREAD }

/-- `createSignalFromWebhook`: a brand-new `unread` Signal built from the
canonical record, with the documented fallbacks for title, content, source
and tags. -/
def createSignalFromWebhook (d : Json) (newId : String) (now : Nat) : Signal :=
  { id := newId
    title := (receiveTitle d).getD "Extracted Insight"
    content := receiveContent d
    summary := strFieldAny d "summary"
    source := some ((jsStrField d "source").getD "n8n")
    sourceUrl := strFieldAny d "sourceUrl"
    rawContent := strFieldAny d "rawContent"
    tags := jsonStringify (match d.getField "topics" with
                           | some v => if v.truthy then v else .arr []
                           | none => .arr [])
    status := SIGNAL_STATUS.UNREAD
    createdAt := now }

/-- The deduplication window: placeholders created within the last
10 minutes (`Date.now() - 10 * 60 * 1000`; the truncated `Nat` subtraction
agrees with the integer cutoff because timestamps are non-negative). -/
def inDedupWindow (now createdAt : Nat) : Bool :=
  now - 600000 ≤ createdAt

/-- The placeholders the dedup query may match for payload source URL `u`:
`processing` status, created inside the window, equal `sourceUrl`. -/
def dedupMatches (db : List Signal) (now : Nat) (u : String) : List Signal :=
  db.filter (fun s =>
    s.status == SIGNAL_STATUS.PROCESSING && inDedupWindow now s.createdAt
      && s.sourceUrl == some u)

/-- `findFirst` with `orderBy createdAt desc`: the earliest-listed record
among those with maximal creation time. -/
def newestMatch (l : List Signal) : Option Signal :=
  l.foldl (fun acc s =>
    match acc with
    | none => some s
    | some t => if t.createdAt < s.createdAt then some s else some t) none

/-- Response of the receive route. -/
inductive ReceiveResponse where
  | badRequest : ReceiveResponse
  | serverError : ReceiveResponse
  | created (signalId : String) (updatedExisting : Bool) : ReceiveResponse
deriving DecidableEq, Repr

/-- POST `/api/signals/receive` (the dedup-capable version): normalizes the
payload, rejects it when none of summary / key_insights / title is truthy,
resolves the target record (explicit `signalId`, else the newest matching
`processing` placeholder by `sourceUrl` within 10 minutes), updates it in
place to `unread`, and otherwise appends a brand-new `unread` Signal.
`newId` is the identifier the store would assign on creation and `now` the
current epoch-millisecond clock. -/
def receivePOST (body : Json) (now : Nat) (newId : String) (db : List Signal) :
    ReceiveResponse × List Signal :=
  match extractN8nData body with
  | .error _ => (.serverError, db)
  | .ok data =>
    if !truthyField data "summary" && !truthyField data "key_insights"
        && !truthyField data "title" then
      (.badRequest, db)
    else
      let targetId : Option String :=
        match jsStrField data "signalId" with
        | some i => some i
        | none =>
          match jsStrField data "sourceUrl" with
          | some u => (newestMatch (dedupMatches db now u)).map Signal.id
          | none => none
      match targetId with
      | some i =>
        match findSignal db i with
        | none => (.serverError, db)
        | some _ =>
          (.created i true,
           db.map (fun s => if s.id == i then applyReceiveUpdate data s else s))
      | none =>
        (.created newId false, db ++ [createSignalFromWebhook data newId now])

/-! ## Insight store (`src/unnamed/part_008`, Prisma `Insight`) -/

/-- A row of the Prisma `Insight` table (the Signal/Thought link tables are
not modelled; no claim depends on them).  `publishedAt` is epoch
milliseconds. -/
structure Insight where
  id : String
  coreInsight : String
  status : String
  preview : Option String
  previewPlatform : Option String
  publishedUrl : Option String
  publishedAt : Option Nat
deriving DecidableEq, Repr

/-- `prisma.insight.findUnique` by id. -/
def findInsight (db : List Insight) (id : String) : Option Insight :=
  db.find? (fun i => i.id == id)

/-- Status column of one insight, if present. -/
def insightStatus (db : List Insight) (id : String) : Option String :=
  (findInsight db id).map Insight.status

/-- `prisma.insight.update` of the `status` column for one id. -/
def updateInsightStatus (db : List Insight) (id status : String) : List Insight :=
  db.map (fun i => if i.id == id then { i with status := status } else i)

/-- JavaScript truthiness of a nullable string column. -/
def optTruthy (o : Option String) : Bool :=
  o.elim false (fun s => !s.isEmpty)

/-- `triggerFormat` (webhooks lib): pre-marks the target Insight as
`formatting` before issuing the call and reverts it to `draft` when the
call fails; a missing configuration fails before any status write.  The
third component instruments the run with the target's status at the moment
the HTTP request is issued (`none` when no request is made); the store
effects are exactly the two `prisma.insight.update` calls of the source. -/
def triggerFormatRun (cfg : Option String) (f : FetchOutcome) (insId : String)
    (db : List Insight) : WebhookResult × List Insight × Option String :=
  match cfg with
  | none =>
    ({ success := false
       error := some "Format webhook URL not configured. Please set up in Settings."
       data := none },
     db, none)
  | some _ =>
    let db1 := updateInsightStatus db insId "formatting"
    let atCall := insightStatus db1 insId
    match f with
    | .netError =>
      ({ success := false, error := some "Failed to trigger format", data := none },
       updateInsightStatus db1 insId "draft", atCall)
    | .resp ok _ =>
      if ok then ({ success := true, error := none, data := none }, db1, atCall)
      else
        ({ success := false, error := some "Webhook returned non-2xx", data := none },
         updateInsightStatus db1 insId "draft", atCall)

/-- Body of the manual Insight creation request; the empty string models an
absent or otherwise falsy field (`thoughtIds`/`signalIds` only populate the
link tables and are not modelled). -/
structure InsightCreateBody where
  coreInsight : String
  preview : String
  previewPlatform : String
deriving DecidableEq, Repr

/-- Response of the Insight creation endpoint. -/
inductive InsightCreateResponse where
  | badRequest : InsightCreateResponse
  | created (id : String) : InsightCreateResponse
deriving DecidableEq, Repr

/-- POST `/api/insights` (the version defaulting the preview): requires a
truthy `coreInsight`, then creates a `draft` Insight whose `preview`
defaults to the core-insight text and whose `previewPlatform` defaults to
`linkedin`. -/
def insightsPOST (body : InsightCreateBody) (newId : String) (db : List Insight) :
    InsightCreateResponse × List Insight :=
  if body.coreInsight.isEmpty then (.badRequest, db)
  else
    (.created newId,
     db ++ [{ id := newId
              coreInsight := body.coreInsight
              preview := some (if body.preview.isEmpty then body.coreInsight else body.preview)
              previewPlatform :=
                some (if body.previewPlatform.isEmpty then "linkedin" else body.previewPlatform)
              status := "draft"
              publishedUrl := none
              publishedAt := none }])

/-- The record the manual creation endpoint stores for a given request
body (preview defaulting to the core-insight text, platform defaulting to
`linkedin`, status `draft`). -/
def insightCreatedRecord (body : InsightCreateBody) (newId : String) : Insight :=
  { id := newId
    coreInsight := body.coreInsight
    preview := some (if body.preview.isEmpty then body.coreInsight else body.preview)
    previewPlatform :=
      some (if body.previewPlatform.isEmpty then "linkedin" else body.previewPlatform)
    status := "draft"
    publishedUrl := none
    publishedAt := none }

/-- The publish precondition of the publish action:
`!insight.preview && !insight.coreInsight` rejects, so the Insight may be
published when preview or core-insight text is truthy. -/
def publishPrecondOK (i : Insight) : Bool :=
  optTruthy i.preview || !i.coreInsight.isEmpty

/-- Response of the Insight PATCH publish action. -/
inductive PublishResponse where
  | contentError400 : PublishResponse
  | error502 (e : Option String) : PublishResponse
  | publishedNow : PublishResponse
  | okPending : PublishResponse
deriving DecidableEq, Repr

/-- PATCH `/api/insights` with `action: "publish"` (the version that
pre-marks `publishing`): validates content, sets status to `publishing`,
dispatches, reverts to `draft` on dispatch failure (502), and — only when
the dispatch result carries a payload with `status: "success"` and a
truthy `postUrl` — immediately marks the Insight `published` with
`publishedUrl`/`publishedAt`; otherwise it stays `publishing` awaiting the
asynchronous confirmation. -/
def publishPATCH (cfg : Option String) (f : FetchOutcome) (id : String) (now : Nat)
    (db : List Insight) : PublishResponse × List Insight :=
  match findInsight db id with
  | none => (.contentError400, db)
  | some ins =>
    if !publishPrecondOK ins then (.contentError400, db)
    else
      let db1 := updateInsightStatus db id "publishing"
      let result := triggerPublish cfg f
      if !result.success then (.error502 result.error, updateInsightStatus db1 id "draft")
      else
        let syncOk :=
          match result.data with
          | some d =>
            d.truthy
              && (match d.getField "status" with | some (.str s) => s == "success" | _ => false)
              && truthyField d "postUrl"
          | none => false
        if syncOk then
          match result.data.bind (fun d => d.getField "postUrl") with
          | some (.str u) =>
            (.publishedNow,
             db1.map (fun i => if i.id == id then
               { i with status := "published", publishedUrl := some u, publishedAt := some now }
               else i))
          | _ => (.okPending, db1)
        else (.okPending, db1)

/-- Body of the regular (non-action) Insight PATCH: `none` models an absent
field (Prisma keeps the column), `some none` an explicit JSON `null` for
the nullable `preview` column, `some (some s)` a string. -/
structure InsightEditBody where
  id : String
  coreInsight : Option String
  preview : Option (Option String)
deriving DecidableEq, Repr

/-- Regular-update branch of PATCH `/api/insights`: the user may hand-edit
core-insight and preview text at any time regardless of status. -/
def insightsEditPATCH (body : InsightEditBody) (db : List Insight) : List Insight :=
  if body.id.isEmpty then db
  else
    db.map (fun i => if i.id == body.id then
      { i with coreInsight := (body.coreInsight).getD i.coreInsight
               preview := (body.preview).getD i.preview }
      else i)

/-- Body of the preview callback (`/api/insights/preview`); the empty
string models an absent or otherwise falsy field. -/
structure PreviewBody where
  insightId : String
  preview : String
  platform : String
deriving DecidableEq, Repr

/-- POST `/api/insights/preview`: requires all three fields truthy and a
known insight, then stores the preview and platform and sets status
`previewing`. -/
def previewPOST (body : PreviewBody) (db : List Insight) : List Insight :=
  if body.insightId.isEmpty || body.preview.isEmpty || body.platform.isEmpty then db
  else
    match findInsight db body.insightId with
    | none => db
    | some _ =>
      db.map (fun i => if i.id == body.insightId then
        { i with preview := some body.preview
                 previewPlatform := some body.platform
                 status := "previewing" }
        else i)

/-- Body of the publish confirmation callback
(`/api/insights/confirm`): `postUrl` distinguishes absent (`none`, Prisma
keeps the column), JSON `null` (`some none`) and a string. -/
structure ConfirmBody where
  insightId : String
  status : String
  postUrl : Option (Option String)
  error : Option String
deriving DecidableEq, Repr

/-- Response of the publish confirmation callback. -/
inductive ConfirmResponse where
  | badRequest : ConfirmResponse
  | notFound : ConfirmResponse
  | published : ConfirmResponse
  | revertedDraft : ConfirmResponse
deriving DecidableEq, Repr

/-- POST `/api/insights/confirm`: validates `insightId`/`status`, 404s on
an unknown insight; a `"success"` status marks the Insight `published`
with `publishedAt := now` and `publishedUrl` taken from `postUrl` (the
column is left unchanged when `postUrl` is absent); any other status
reverts the Insight to `draft` and clears its `preview`. -/
def confirmPOST (body : ConfirmBody) (now : Nat) (db : List Insight) :
    ConfirmResponse × List Insight :=
  if body.insightId.isEmpty || body.status.isEmpty then (.badRequest, db)
  else
    match findInsight db body.insightId with
    | none => (.notFound, db)
    | some _ =>
      if body.status == "success" then
        (.published,
         db.map (fun i => if i.id == body.insightId then
           { i with status := "published"
                    publishedUrl := (body.postUrl).getD i.publishedUrl
                    publishedAt := some now }
           else i))
      else
        (.revertedDraft,
         db.map (fun i => if i.id == body.insightId then
           { i with status := "draft", preview := none }
           else i))

/-- DELETE `/api/insights`: removes the record (its Thoughts are unlinked
in the Thought table, not modelled here). -/
def insightsDELETE (id : String) (db : List Insight) : List Insight :=
  if id.isEmpty then db else db.filter (fun i => i.id != id)

/-! ## Reachable Insight-store states -/

/-- One Insight-store mutation of the orchestration surface, with every
external input (request body, webhook configuration, HTTP outcome, clock,
fresh id) packed into the operation. -/
inductive InsOp where
  | create (body : InsightCreateBody) (newId : String) : InsOp
  | edit (body : InsightEditBody) : InsOp
  | publish (cfg : Option String) (f : FetchOutcome) (id : String) (now : Nat) : InsOp
  | format (cfg : Option String) (f : FetchOutcome) (id : String) : InsOp
  | previewCb (body : PreviewBody) : InsOp
  | confirm (body : ConfirmBody) (now : Nat) : InsOp
  | remove (id : String) : InsOp

/-- Store effect of one operation. -/
def applyInsOp : InsOp → List Insight → List Insight
  | .create body newId, db => (insightsPOST body newId db).2
  | .edit body, db => insightsEditPATCH body db
  | .publish cfg f id now, db => (publishPATCH cfg f id now db).2
  | .format cfg f id, db => (triggerFormatRun cfg f id db).2.1
  | .previewCb body, db => previewPOST body db
  | .confirm body now, db => (confirmPOST body now db).2
  | .remove id, db => insightsDELETE id db

/-- Insight-store states reachable from the empty store through the
modelled operations. -/
inductive ReachableIns : List Insight → Prop where
  | init : ReachableIns []
  | step (op : InsOp) {db : List Insight} : ReachableIns db → ReachableIns (applyInsOp op db)

/-- Per-record half of the published-fields invariant: a set `publishedUrl`
entails a set `publishedAt`. -/
def urlImpliesAt (i : Insight) : Prop :=
  i.publishedUrl.isSome → i.publishedAt.isSome

/-! ## Concrete test fixtures used by witnesses and counterexamples -/

/-- A Signal row with fixed filler content columns. -/
def mkTestSignal (id status : String) (createdAt : Nat) (url : Option String) : Signal :=
  { id := id, title := "t", content := "content", summary := none, source := none
    sourceUrl := url, rawContent := none, tags := "[]", status := status
    createdAt := createdAt }

/-- An Insight row with fixed filler columns. -/
def mkTestInsight (id status : String) (preview : Option String) : Insight :=
  { id := id, coreInsight := "core", status := status, preview := preview
    previewPlatform := some "linkedin", publishedUrl := none, publishedAt := none }

/-- A two-signal store with one `reviewed` and one `unread` record. -/
def clusterDb : List Signal :=
  [mkTestSignal "a" "reviewed" 0 none, mkTestSignal "b" "unread" 0 none]

/-- A store holding one fresh `processing` placeholder for `http://x`. -/
def receiveDb : List Signal :=
  [mkTestSignal "p2" "processing" 900000 (some "http://x")]

/-- The array-wrapped reply on which the normalizer claim fails: the outer
object carries a non-colliding field `b` next to the nested `output`. -/
def c4Input : Json :=
  .arr [.obj [("output", .obj [("a", .num 1)]), ("b", .num 2)]]

/-- An inline engine reply for the publish dispatch: a success payload
carrying a post URL. -/
def syncSuccessReply : Json :=
  .obj [("status", .str "success"), ("postUrl", .str "https://posts.example/1")]

/-- A receive-callback payload carrying a summary and a source URL but no
explicit identifier. -/
def receivePayload : Json :=
  .obj [("summary", .str "sum"), ("sourceUrl", .str "http://x")]

/-- A failed publish confirmation naming insight `i1`. -/
def confirmFailedBody : ConfirmBody :=
  { insightId := "i1", status := "failed", postUrl := none, error := some "boom" }

/-- Trace: manually create insight `i1`, then deliver a publish success
confirmation that carries no `postUrl`. -/
def confirmNoUrlState : List Insight :=
  applyInsOp (.confirm { insightId := "i1", status := "success", postUrl := none, error := none } 7000)
    (applyInsOp (.create { coreInsight := "core", preview := "", previewPlatform := "" } "i1") [])

/-- Trace: manually create insight `i1`, then deliver a publish success
confirmation that does carry a `postUrl`. -/
def confirmWithUrlState : List Insight :=
  applyInsOp (.confirm { insightId := "i1", status := "success", postUrl := some (some "https://posts.example/1"), error := none } 9000)
    (applyInsOp (.create { coreInsight := "core", preview := "", previewPlatform := "" } "i1") [])

end CorePerigee

namespace CorePerigee

/-! ## Helper lemmas -/

/-- `find?` by id commutes with a map that preserves ids. -/
lemma findInsight_map_of_id_preserved (f : Insight → Insight)
    (hf : ∀ i, (f i).id = i.id) (db : List Insight) (k : String) :
    findInsight (db.map f) k = (findInsight db k).map f := by
  induction db with
  | nil => rfl
  | cons a l ih =>
    simp only [findInsight, List.map_cons, List.find?] at *
    rw [hf a]
    cases h : (a.id == k) with
    | true => simp
    | false => simpa using ih

/-- The record a successful `find?` by id returns carries that id. -/
lemma findInsight_some_id {db : List Insight} {k : String} {i : Insight}
    (h : findInsight db k = some i) : (i.id == k) = true := by
  unfold findInsight at h
  exact List.find?_some (p := fun (j : Insight) => j.id == k) h

/-- Same for the Signal store. -/
lemma findSignal_some_id {db : List Signal} {k : String} {s : Signal}
    (h : findSignal db k = some s) : (s.id == k) = true := by
  unfold findSignal at h
  exact List.find?_some (p := fun (j : Signal) => j.id == k) h

/-- `newestMatch` only ever returns a member of its input list. -/
lemma newestMatch_aux_mem (l : List Signal) :
    ∀ (acc : Option Signal) (m : Signal),
      l.foldl (fun acc s =>
        match acc with
        | none => some s
        | some t => if t.createdAt < s.createdAt then some s else some t) acc = some m →
      m ∈ l ∨ acc = some m := by
  induction l with
  | nil => intro acc m h; right; exact h
  | cons x xs ih =>
    intro acc m h
    rcases ih _ m h with hm | heq
    · exact Or.inl (List.mem_cons_of_mem _ hm)
    · cases acc with
      | none =>
        simp only [] at heq
        exact Or.inl (by rw [← Option.some.injEq x m |>.mp heq]; exact List.mem_cons_self x xs)
      | some t =>
        by_cases hlt : t.createdAt < x.createdAt
        · simp only [hlt, if_true] at heq
          exact Or.inl (by rw [← Option.some.injEq x m |>.mp heq]; exact List.mem_cons_self x xs)
        · simp only [hlt, if_false] at heq
          exact Or.inr heq

/-- `newestMatch` returns a member. -/
lemma newestMatch_mem {l : List Signal} {m : Signal} (h : newestMatch l = some m) :
    m ∈ l := by
  rcases newestMatch_aux_mem l none m h with hm | heq
  · exact hm
  · cases heq

/-- With pairwise-distinct ids, membership of a signal's id in the list of
ids gathered from the `reviewed` filter is exactly the signal being
`reviewed`. -/
lemma contains_reviewedIds {db : List Signal} (hnodup : (db.map Signal.id).Nodup)
    {s : Signal} (hs : s ∈ db) :
    ((db.filter (fun t => t.status == SIGNAL_STATUS.REVIEWED)).map Signal.id).contains s.id
      = (s.status == SIGNAL_STATUS.REVIEWED) := by
  by_cases hp : (s.status == SIGNAL_STATUS.REVIEWED) = true
  · rw [hp]
    exact List.elem_eq_true_of_mem
      (List.mem_map_of_mem Signal.id (List.mem_filter.mpr ⟨hs, hp⟩))
  · have hp' : (s.status == SIGNAL_STATUS.REVIEWED) = false := by
      simpa using hp
    rw [hp']
    by_contra hcon
    have hc : ((db.filter (fun t => t.status == SIGNAL_STATUS.REVIEWED)).map Signal.id).contains s.id
        = true := by
      cases hb : ((db.filter (fun t => t.status == SIGNAL_STATUS.REVIEWED)).map Signal.id).contains s.id
      · exact absurd hb hcon
      · rfl
    have hmem : s.id ∈ (db.filter (fun t => t.status == SIGNAL_STATUS.REVIEWED)).map Signal.id :=
      List.elem_iff.mp hc
    rcases List.mem_map.mp hmem with ⟨t, ht, hid⟩
    rcases List.mem_filter.mp ht with ⟨htdb, htp⟩
    have hts : t = s := List.inj_on_of_nodup_map hnodup htdb hs hid
    rw [hts] at htp
    exact absurd htp (by rw [hp']; exact Bool.false_ne_true)

/-- The conditional one-record rewrites used by every update handler
preserve ids. -/
lemma condUpdate_id (k : String) (g : Insight → Insight)
    (hg : ∀ i, (g i).id = i.id) (i : Insight) :
    ((fun j => if j.id == k then g j else j) i).id = i.id := by
  by_cases h : (i.id == k) = true <;> simp [h, hg]

/-- Looking up the touched id after a conditional one-record rewrite yields
the rewritten record. -/
lemma findInsight_condUpdate {db : List Insight} {k : String} {ins : Insight}
    (hfound : findInsight db k = some ins) (g : Insight → Insight)
    (hg : ∀ i, (g i).id = i.id) :
    findInsight (db.map (fun j => if j.id == k then g j else j)) k = some (g ins) := by
  rw [findInsight_map_of_id_preserved _ (condUpdate_id k g hg), hfound]
  show some (if ins.id == k then g ins else ins) = some (g ins)
  rw [if_pos (findInsight_some_id hfound)]

/-- Status read-back after a status update of a present record. -/
lemma insightStatus_updateInsightStatus {db : List Insight} {k : String} {ins : Insight}
    (hfound : findInsight db k = some ins) (st : String) :
    insightStatus (updateInsightStatus db k st) k = some st := by
  unfold insightStatus updateInsightStatus
  rw [findInsight_condUpdate hfound (fun j => { j with status := st }) (fun _ => rfl)]
  rfl

/-- A status update keeps a present record present (with the new status). -/
lemma findInsight_updateInsightStatus {db : List Insight} {k : String} {ins : Insight}
    (hfound : findInsight db k = some ins) (st : String) :
    findInsight (updateInsightStatus db k st) k = some { ins with status := st } := by
  unfold updateInsightStatus
  exact findInsight_condUpdate hfound (fun j => { j with status := st }) (fun _ => rfl)

/-! ## Claim theorems -/

/-- C1: the claim says a Signal marked reviewed stays `reviewed` when the
automatic `generate` dispatch is unconfigured or fails, advancing to
`processed` only on dispatch success.  The code violates this:
`triggerGenerate` reports failure through its return value and never
throws, the PATCH handler ignores that value, so its catch block cannot
intercept a failed dispatch and the `processed` update runs anyway.  Both
failure modes (webhook unconfigured; network error on dispatch) leave the
Signal at `processed`. -/
theorem review_dispatch_failure_still_marks_processed :
    (triggerGenerate none (.resp true .null)).success = false
    ∧ signalStatus (signalsPATCH none (.resp true .null)
        { id := "s1", status := "reviewed" } [mkTestSignal "s1" "unread" 0 none]).2 "s1"
      = some SIGNAL_STATUS.PROCESSED
    ∧ (triggerGenerate (some "http://n8n.example") .netError).success = false
    ∧ signalStatus (signalsPATCH (some "http://n8n.example") .netError
        { id := "s1", status := "reviewed" } [mkTestSignal "s1" "unread" 0 none]).2 "s1"
      = some SIGNAL_STATUS.PROCESSED := by
  decide

/-- C4 counterexample: on the array-wrapped input
`[ \x7b output: \x7b a: 1 \x7d, b: 2 \x7d ]` the code returns only the inner
`output` object and drops the outer field `b`, while the claim's
procedure (take the first element, then merge outer fields with `output`
fields, `output` winning on collision) keeps `b`. -/
theorem normalizer_claim_counterexample :
    extractN8nData c4Input = .ok (.obj [("a", .num 1)])
    ∧ normalizeClaim c4Input = .obj [("b", .num 2), ("a", .num 1)]
    ∧ extractN8nData c4Input ≠ .ok (normalizeClaim c4Input) := by
  refine ⟨rfl, rfl, ?_⟩
  intro h
  have h1 : Json.obj [("a", Json.num 1)] = Json.obj [("b", Json.num 2), ("a", Json.num 1)] := by
    injection h
  injection h1 with h2
  injection h2 with h3 h4
  injection h3 with h5 h6
  exact absurd h5 (by decide)

/-- C4 amended: the normalizer takes a non-empty array's first element and
returns its truthy `output` value alone (no merge with the outer fields;
the first element itself when `output` is absent or falsy; an error on a
`null` element), returns an empty array unchanged (it carries no fields),
merges a non-array object having a truthy object-typed `output` field via
the JavaScript spread (outer fields first, `output` fields winning, the
`output` key retained), leaves any other object unchanged, and yields the
empty record on non-objects. -/
theorem extractN8nData_matches_amended_normalizer (v : Json) :
    extractN8nData v = normalizeAmended v := by
  cases v with
  | null => rfl
  | bool b => simp [extractN8nData, normalizeAmended, Json.truthy, Json.isObjectType]
  | num n => simp [extractN8nData, normalizeAmended, Json.truthy, Json.isObjectType]
  | str s => simp [extractN8nData, normalizeAmended, Json.truthy, Json.isObjectType]
  | arr xs =>
    cases xs with
    | nil => rfl
    | cons x rest => cases x <;> rfl
  | obj kvs => rfl

/-- C2: when the store's ids are pairwise distinct, the cluster trigger
finds a non-empty `reviewed` set and the `cluster` dispatch succeeds, the
response reports the count of that set and afterwards exactly the
previously-`reviewed` signals carry status `clustered`, every other record
being unchanged. -/
theorem cluster_success_clusters_exactly_reviewed
    (cfg : Option String) (f : FetchOutcome) (db : List Signal)
    (hnodup : (db.map Signal.id).Nodup)
    (hsucc : (triggerCluster cfg f).success = true)
    (hne : db.filter (fun s => s.status == SIGNAL_STATUS.REVIEWED) ≠ []) :
    (clusterPOST cfg f db).1
      = .ok (db.filter (fun s => s.status == SIGNAL_STATUS.REVIEWED)).length
    ∧ (clusterPOST cfg f db).2
      = db.map (fun s =>
          if s.status == SIGNAL_STATUS.REVIEWED
          then { s with status := SIGNAL_STATUS.CLUSTERED } else s) := by
  have hne' : (db.filter (fun s => s.status == SIGNAL_STATUS.REVIEWED)).isEmpty = false := by
    simpa [List.isEmpty_iff] using hne
  constructor
  · simp [clusterPOST, hne', hsucc]
  · simp only [clusterPOST, hne', Bool.false_eq_true, if_false, hsucc, Bool.not_true]
    apply List.map_congr_left
    intro s hs
    rw [contains_reviewedIds hnodup hs]

/-- C2 witness: a concrete two-signal store, a configured webhook and a
2xx dispatch response instantiate the theorem. -/
theorem cluster_success_clusters_exactly_reviewed_witness :
    ((clusterDb.map Signal.id).Nodup
      ∧ (triggerCluster (some "http://n8n.example") (.resp true .null)).success = true
      ∧ clusterDb.filter (fun s => s.status == SIGNAL_STATUS.REVIEWED) ≠ [])
    ∧ ((clusterPOST (some "http://n8n.example") (.resp true .null) clusterDb).1
        = .ok (clusterDb.filter (fun s => s.status == SIGNAL_STATUS.REVIEWED)).length
      ∧ (clusterPOST (some "http://n8n.example") (.resp true .null) clusterDb).2
        = clusterDb.map (fun s =>
            if s.status == SIGNAL_STATUS.REVIEWED
            then { s with status := SIGNAL_STATUS.CLUSTERED } else s)) :=
  ⟨⟨by decide, by decide, by decide⟩,
   cluster_success_clusters_exactly_reviewed _ _ _ (by decide) (by decide) (by decide)⟩

/-- C8: the cluster trigger mutates nothing unless the dispatch confirms
success on a non-empty `reviewed` set: with zero `reviewed` signals it
returns the no-op success and leaves the store untouched, and when the
dispatch fails it leaves the store untouched and (on a non-empty set)
returns the 502 error carrying the dispatch error. -/
theorem cluster_no_mutation_without_success
    (cfg : Option String) (f : FetchOutcome) (db : List Signal) :
    (db.filter (fun s => s.status == SIGNAL_STATUS.REVIEWED) = [] →
      clusterPOST cfg f db = (.noop, db))
    ∧ ((triggerCluster cfg f).success = false →
      (clusterPOST cfg f db).2 = db
      ∧ (db.filter (fun s => s.status == SIGNAL_STATUS.REVIEWED) ≠ [] →
          (clusterPOST cfg f db).1 = .error502 (triggerCluster cfg f).error)) := by
  constructor
  · intro hempty
    simp [clusterPOST, hempty]
  · intro hfail
    by_cases hemp : db.filter (fun s => s.status == SIGNAL_STATUS.REVIEWED) = []
    · exact ⟨by simp [clusterPOST, hemp], fun hne => absurd hemp hne⟩
    · have hne' : (db.filter (fun s => s.status == SIGNAL_STATUS.REVIEWED)).isEmpty = false := by
        simpa [List.isEmpty_iff] using hemp
      exact ⟨by simp [clusterPOST, hne', hfail], fun _ => by simp [clusterPOST, hne', hfail]⟩

/-- C8 witness: with no `reviewed` signal the trigger is a no-op success;
with a failing dispatch the store is unchanged. -/
theorem cluster_no_mutation_without_success_witness :
    clusterPOST (some "http://n8n.example") (.resp true .null)
        [mkTestSignal "b" "unread" 0 none]
      = (.noop, [mkTestSignal "b" "unread" 0 none])
    ∧ (clusterPOST (some "http://n8n.example") .netError clusterDb).2 = clusterDb :=
  ⟨(cluster_no_mutation_without_success _ _ _).1 (by decide),
   ((cluster_no_mutation_without_success _ _ _).2 (by decide)).1⟩

/-- C3: the claim says a synchronous success reply carrying a post URL
immediately publishes the Insight.  The code violates this: every version
of `triggerPublish` checks only `response.ok` and discards the reply body,
so `result.data` is always `none` and the handler's synchronous-success
branch never fires — with the engine replying 200
`\x7bstatus:"success", postUrl:…\x7d` inline, the dispatch succeeds, `data`
is `none`, and the Insight is left at `publishing` with no
`publishedUrl`/`publishedAt`. -/
theorem publish_sync_success_reply_is_discarded :
    (triggerPublish (some "http://n8n.example") (.resp true syncSuccessReply)).success = true
    ∧ (triggerPublish (some "http://n8n.example") (.resp true syncSuccessReply)).data = none
    ∧ (publishPATCH (some "http://n8n.example") (.resp true syncSuccessReply) "i1" 5000
        [mkTestInsight "i1" "draft" (some "prev")]).1 = .okPending
    ∧ (publishPATCH (some "http://n8n.example") (.resp true syncSuccessReply) "i1" 5000
        [mkTestInsight "i1" "draft" (some "prev")]).2
      = [mkTestInsight "i1" "publishing" (some "prev")] :=
  ⟨rfl, rfl, by decide, by decide⟩

/-- C6: a publish confirmation with status `"failed"` for an existing
Insight reverts that Insight to `draft` and clears its `preview`,
whatever its prior status, and rewrites no other record. -/
theorem confirm_failed_reverts_to_draft_and_clears_preview
    (body : ConfirmBody) (now : Nat) (db : List Insight) (ins : Insight)
    (hid : body.insightId.isEmpty = false)
    (hstatus : body.status = "failed")
    (hfound : findInsight db body.insightId = some ins) :
    (confirmPOST body now db).1 = .revertedDraft
    ∧ (confirmPOST body now db).2
      = db.map (fun i => if i.id == body.insightId then
          { i with status := "draft", preview := none } else i)
    ∧ insightStatus (confirmPOST body now db).2 body.insightId = some "draft"
    ∧ (findInsight (confirmPOST body now db).2 body.insightId).map Insight.preview
      = some none := by
  have hst : body.status.isEmpty = false := by rw [hstatus]; decide
  have hne : (body.status == "success") = false := by rw [hstatus]; decide
  have hmain : (confirmPOST body now db).2
      = db.map (fun i => if i.id == body.insightId then
          { i with status := "draft", preview := none } else i) := by
    simp [confirmPOST, hid, hst, hne, hfound]
  have hfind : findInsight (confirmPOST body now db).2 body.insightId
      = some { ins with status := "draft", preview := none } := by
    rw [hmain]
    exact findInsight_condUpdate hfound
      (fun j => { j with status := "draft", preview := none }) (fun _ => rfl)
  refine ⟨?_, hmain, ?_, ?_⟩
  · simp [confirmPOST, hid, hst, hne, hfound]
  · unfold insightStatus
    rw [hfind]
    rfl
  · rw [hfind]
    rfl

/-- C6 witness: a `publishing` Insight with a stored preview reverts to a
previewless `draft` on a failed confirmation. -/
theorem confirm_failed_reverts_witness :
    (confirmFailedBody.insightId.isEmpty = false
      ∧ confirmFailedBody.status = "failed"
      ∧ findInsight [mkTestInsight "i1" "publishing" (some "prev")] "i1"
        = some (mkTestInsight "i1" "publishing" (some "prev")))
    ∧ insightStatus (confirmPOST confirmFailedBody
        7000 [mkTestInsight "i1" "publishing" (some "prev")]).2 "i1" = some "draft" :=
  ⟨⟨by decide, rfl, by decide⟩,
   (confirm_failed_reverts_to_draft_and_clears_preview confirmFailedBody 7000
     [mkTestInsight "i1" "publishing" (some "prev")] (mkTestInsight "i1" "publishing" (some "prev"))
     (by decide) rfl (by decide)).2.2.1⟩

/-- C7: with the `format` webhook configured and the target Insight
present, the dispatcher has set the Insight's status to `formatting` at
the moment the HTTP request is issued, and whenever the call fails
(network error or non-2xx response) the final status is `draft` — never
`formatting`. -/
theorem format_premarks_then_reverts_on_failure
    (url : String) (f : FetchOutcome) (insId : String) (db : List Insight) (ins : Insight)
    (hfound : findInsight db insId = some ins) :
    (triggerFormatRun (some url) f insId db).2.2 = some "formatting"
    ∧ ((triggerFormatRun (some url) f insId db).1.success = false →
        insightStatus (triggerFormatRun (some url) f insId db).2.1 insId = some "draft"
        ∧ insightStatus (triggerFormatRun (some url) f insId db).2.1 insId
          ≠ some "formatting") := by
  have hfmt := findInsight_updateInsightStatus hfound "formatting"
  cases f with
  | netError =>
    refine ⟨?_, fun _ => ⟨?_, ?_⟩⟩
    · show insightStatus (updateInsightStatus db insId "formatting") insId = some "formatting"
      exact insightStatus_updateInsightStatus hfound "formatting"
    · exact insightStatus_updateInsightStatus hfmt "draft"
    · show insightStatus
          (updateInsightStatus (updateInsightStatus db insId "formatting") insId "draft") insId
        ≠ some "formatting"
      rw [insightStatus_updateInsightStatus hfmt "draft"]
      intro h
      injection h with h2
      exact absurd h2 (by decide)
  | resp ok body =>
    cases ok with
    | true =>
      refine ⟨?_, fun hfail => Bool.noConfusion hfail⟩
      · show insightStatus (updateInsightStatus db insId "formatting") insId = some "formatting"
        exact insightStatus_updateInsightStatus hfound "formatting"
    | false =>
      refine ⟨?_, fun _ => ⟨?_, ?_⟩⟩
      · show insightStatus (updateInsightStatus db insId "formatting") insId = some "formatting"
        exact insightStatus_updateInsightStatus hfound "formatting"
      · exact insightStatus_updateInsightStatus hfmt "draft"
      · show insightStatus
            (updateInsightStatus (updateInsightStatus db insId "formatting") insId "draft") insId
          ≠ some "formatting"
        rw [insightStatus_updateInsightStatus hfmt "draft"]
        intro h
        injection h with h2
        exact absurd h2 (by decide)

/-- C7 witness: a network error on the format dispatch leaves the target
Insight at `draft`, having pre-marked it `formatting` at call time. -/
theorem format_premarks_then_reverts_witness :
    findInsight [mkTestInsight "i1" "draft" (some "prev")] "i1"
      = some (mkTestInsight "i1" "draft" (some "prev"))
    ∧ ((triggerFormatRun (some "http://n8n.example") .netError "i1"
        [mkTestInsight "i1" "draft" (some "prev")]).2.2 = some "formatting"
      ∧ ((triggerFormatRun (some "http://n8n.example") .netError "i1"
          [mkTestInsight "i1" "draft" (some "prev")]).1.success = false →
        insightStatus (triggerFormatRun (some "http://n8n.example") .netError "i1"
          [mkTestInsight "i1" "draft" (some "prev")]).2.1 "i1" = some "draft"
        ∧ insightStatus (triggerFormatRun (some "http://n8n.example") .netError "i1"
            [mkTestInsight "i1" "draft" (some "prev")]).2.1 "i1" ≠ some "formatting")) :=
  ⟨by decide,
   format_premarks_then_reverts_on_failure "http://n8n.example" .netError "i1"
     [mkTestInsight "i1" "draft" (some "prev")] (mkTestInsight "i1" "draft" (some "prev"))
     (by decide)⟩

/-- C10: a manual creation request with truthy core-insight text yields a
stored Insight whose `preview` is non-empty (defaulting to the
core-insight text) and whose `previewPlatform` is set (defaulting to
`linkedin`), so the fresh Insight satisfies the publish precondition. -/
theorem insight_creation_defaults_satisfy_publish_precondition
    (body : InsightCreateBody) (newId : String) (db : List Insight)
    (hcore : body.coreInsight.isEmpty = false) :
    (insightsPOST body newId db).1 = .created newId
    ∧ (insightsPOST body newId db).2 = db ++ [insightCreatedRecord body newId]
    ∧ optTruthy (insightCreatedRecord body newId).preview = true
    ∧ (insightCreatedRecord body newId).previewPlatform ≠ none
    ∧ (body.preview.isEmpty = true →
        (insightCreatedRecord body newId).preview = some body.coreInsight)
    ∧ (body.previewPlatform.isEmpty = true →
        (insightCreatedRecord body newId).previewPlatform = some "linkedin")
    ∧ publishPrecondOK (insightCreatedRecord body newId) = true := by
  have hprev : optTruthy (insightCreatedRecord body newId).preview = true := by
    by_cases h : body.preview.isEmpty = true
    · simp [insightCreatedRecord, optTruthy, h, hcore]
    · simp only [Bool.not_eq_true] at h
      simp [insightCreatedRecord, optTruthy, h]
  refine ⟨?_, ?_, hprev, ?_, ?_, ?_, ?_⟩
  · simp [insightsPOST, hcore]
  · simp [insightsPOST, insightCreatedRecord, hcore]
  · simp [insightCreatedRecord]
  · intro h; simp [insightCreatedRecord, h]
  · intro h; simp [insightCreatedRecord, h]
  · simp [publishPrecondOK, hprev]

/-- C5: for a receive callback that passes content validation, carries no
explicit identifier and carries a source URL: when some `processing`
placeholder created within the last 10 minutes matches that URL, the
newest such placeholder is updated in place (same identifier, no record
created) and advanced to `unread`; when no placeholder matches (stale ones
included), a brand-new `unread` Signal is appended instead. -/
theorem receive_dedup_updates_placeholder_or_creates
    (body data : Json) (u newId : String) (now : Nat) (db : List Signal)
    (hextract : extractN8nData body = .ok data)
    (hval : (!truthyField data "summary" && !truthyField data "key_insights"
        && !truthyField data "title") = false)
    (hnoid : jsStrField data "signalId" = none)
    (hurl : jsStrField data "sourceUrl" = some u) :
    (∀ m, newestMatch (dedupMatches db now u) = some m →
        m ∈ dedupMatches db now u
        ∧ (receivePOST body now newId db).1 = .created m.id true
        ∧ (receivePOST body now newId db).2
          = db.map (fun s => if s.id == m.id then applyReceiveUpdate data s else s)
        ∧ (receivePOST body now newId db).2.map Signal.id = db.map Signal.id
        ∧ (applyReceiveUpdate data m).status = SIGNAL_STATUS.UNREAD)
    ∧ (dedupMatches db now u = [] →
        (receivePOST body now newId db).1 = .created newId false
        ∧ (receivePOST body now newId db).2 = db ++ [createSignalFromWebhook data newId now]
        ∧ (createSignalFromWebhook data newId now).status = SIGNAL_STATUS.UNREAD) := by
  constructor
  · intro m hm
    have hmem : m ∈ dedupMatches db now u := newestMatch_mem hm
    have hmdb : m ∈ db := (List.mem_filter.mp hmem).1
    have hfindsome : (findSignal db m.id).isSome := by
      unfold findSignal
      rw [List.find?_isSome]
      exact ⟨m, hmdb, by simp⟩
    rcases Option.isSome_iff_exists.mp hfindsome with ⟨s', hs'⟩
    have hrun : receivePOST body now newId db
        = (.created m.id true,
           db.map (fun s => if s.id == m.id then applyReceiveUpdate data s else s)) := by
      unfold receivePOST
      rw [hextract]
      simp only [hval, Bool.false_eq_true, if_false, hnoid, hurl, hm, Option.map_some', hs']
    refine ⟨hmem, by rw [hrun], by rw [hrun], ?_, rfl⟩
    rw [hrun]
    simp only [List.map_map]
    apply List.map_congr_left
    intro s _
    show (if (s.id == m.id) = true then applyReceiveUpdate data s else s).id = s.id
    by_cases hc : (s.id == m.id) = true
    · rw [if_pos hc]
      rfl
    · rw [if_neg hc]
  · intro hemp
    have hrun : receivePOST body now newId db
        = (.created newId false, db ++ [createSignalFromWebhook data newId now]) := by
      unfold receivePOST
      rw [hextract]
      simp only [hval, Bool.false_eq_true, if_false, hnoid, hurl, hemp]
      rfl
    exact ⟨by rw [hrun], by rw [hrun], rfl⟩

/-- C5 witness: a payload with a summary and source URL `http://x`, a
2-minute-old matching placeholder store on one side and an empty store on
the other, instantiate the theorem's hypotheses. -/
theorem receive_dedup_witness :
    (extractN8nData receivePayload = .ok receivePayload
      ∧ (!truthyField receivePayload "summary" && !truthyField receivePayload "key_insights"
          && !truthyField receivePayload "title") = false
      ∧ jsStrField receivePayload "signalId" = none
      ∧ jsStrField receivePayload "sourceUrl" = some "http://x")
    ∧ ((∀ m, newestMatch (dedupMatches receiveDb 1000000 "http://x") = some m →
        m ∈ dedupMatches receiveDb 1000000 "http://x"
        ∧ (receivePOST receivePayload 1000000 "new1" receiveDb).1 = .created m.id true
        ∧ (receivePOST receivePayload 1000000 "new1" receiveDb).2
          = receiveDb.map (fun s =>
              if s.id == m.id then applyReceiveUpdate receivePayload s else s)
        ∧ (receivePOST receivePayload 1000000 "new1" receiveDb).2.map Signal.id
          = receiveDb.map Signal.id
        ∧ (applyReceiveUpdate receivePayload m).status = SIGNAL_STATUS.UNREAD)
      ∧ (dedupMatches receiveDb 1000000 "http://x" = [] →
        (receivePOST receivePayload 1000000 "new1" receiveDb).1 = .created "new1" false
        ∧ (receivePOST receivePayload 1000000 "new1" receiveDb).2
          = receiveDb ++ [createSignalFromWebhook receivePayload "new1" 1000000]
        ∧ (createSignalFromWebhook receivePayload "new1" 1000000).status
          = SIGNAL_STATUS.UNREAD)) :=
  ⟨⟨rfl, by decide, by decide, by decide⟩,
   receive_dedup_updates_placeholder_or_creates receivePayload receivePayload "http://x"
     "new1" 1000000 receiveDb rfl (by decide) (by decide) (by decide)⟩

/-- A record whose published fields agree with an invariant-satisfying one
satisfies the invariant. -/
lemma urlImpliesAt_of_untouched {i : Insight} (j : Insight)
    (hurl : j.publishedUrl = i.publishedUrl) (hat : j.publishedAt = i.publishedAt)
    (h : urlImpliesAt i) : urlImpliesAt j := by
  unfold urlImpliesAt at *
  rw [hurl, hat]
  exact h

/-- Pointwise preservation lifts through `map`. -/
lemma urlImpliesAt_map {db : List Insight} (f : Insight → Insight)
    (hdb : ∀ i ∈ db, urlImpliesAt i) (hf : ∀ i, urlImpliesAt i → urlImpliesAt (f i)) :
    ∀ i ∈ db.map f, urlImpliesAt i := by
  intro i hi
  rcases List.mem_map.mp hi with ⟨j, hj, rfl⟩
  exact hf j (hdb j hj)

/-- A conditional rewrite that leaves the published fields alone preserves
the invariant pointwise. -/
lemma urlImpliesAt_condSkip (k : String) (g : Insight → Insight)
    (hgu : ∀ i, (g i).publishedUrl = i.publishedUrl)
    (hga : ∀ i, (g i).publishedAt = i.publishedAt) :
    ∀ i : Insight, urlImpliesAt i →
      urlImpliesAt (if i.id == k then g i else i) := by
  intro i h
  by_cases hc : (i.id == k) = true
  · rw [if_pos hc]
    exact urlImpliesAt_of_untouched _ (hgu i) (hga i) h
  · rw [if_neg hc]
    exact h

/-- `triggerPublish` never carries reply data. -/
lemma triggerPublish_data_none (cfg : Option String) (f : FetchOutcome) :
    (triggerPublish cfg f).data = none := by
  cases cfg with
  | none => rfl
  | some u =>
    cases f with
    | netError => rfl
    | resp ok body => cases ok <;> rfl

/-- The publish action preserves the invariant. -/
lemma urlImpliesAt_publishPATCH (cfg : Option String) (f : FetchOutcome) (id : String)
    (now : Nat) (db : List Insight) (hdb : ∀ i ∈ db, urlImpliesAt i) :
    ∀ i ∈ (publishPATCH cfg f id now db).2, urlImpliesAt i := by
  cases hf1 : findInsight db id with
  | none => simpa [publishPATCH, hf1] using hdb
  | some ins =>
    by_cases h2 : publishPrecondOK ins = true
    · by_cases h3 : (triggerPublish cfg f).success = true
      · have hsimp : (publishPATCH cfg f id now db).2 = updateInsightStatus db id "publishing" := by
          simp [publishPATCH, hf1, h2, h3, triggerPublish_data_none]
        rw [hsimp]
        exact urlImpliesAt_map _ hdb
          (urlImpliesAt_condSkip id (fun j => { j with status := "publishing" })
            (fun _ => rfl) (fun _ => rfl))
      · have hsimp : (publishPATCH cfg f id now db).2
            = updateInsightStatus (updateInsightStatus db id "publishing") id "draft" := by
          simp [publishPATCH, hf1, h2, h3]
        rw [hsimp]
        apply urlImpliesAt_map _ _
          (urlImpliesAt_condSkip id (fun j => { j with status := "draft" })
            (fun _ => rfl) (fun _ => rfl))
        exact urlImpliesAt_map _ hdb
          (urlImpliesAt_condSkip id (fun j => { j with status := "publishing" })
            (fun _ => rfl) (fun _ => rfl))
    · simpa [publishPATCH, hf1, h2] using hdb

/-- C9 counterexample: the claim says `publishedUrl`/`publishedAt` are set
together in every reachable state.  Creating an Insight and delivering a
success confirmation without a `postUrl` reaches a state where
`publishedAt` is set while `publishedUrl` is still absent (the handler
never validates `postUrl`, and Prisma leaves an `undefined` column
unchanged while `publishedAt` is unconditionally set). -/
theorem confirm_success_without_postUrl_splits_published_fields :
    ReachableIns confirmNoUrlState
    ∧ (findInsight confirmNoUrlState "i1").map Insight.publishedAt = some (some 7000)
    ∧ (findInsight confirmNoUrlState "i1").map Insight.publishedUrl = some none :=
  ⟨ReachableIns.step _ (ReachableIns.step _ ReachableIns.init), by decide, by decide⟩

/-- C9 amended: in every reachable Insight-store state, a set
`publishedUrl` entails a set `publishedAt` (both are only written by the
confirmation success path and the synchronous publish success path, which
always set `publishedAt`); the converse fails because a success
confirmation without `postUrl` sets `publishedAt` alone. -/
theorem reachable_publishedUrl_implies_publishedAt
    {db : List Insight} (h : ReachableIns db) :
    ∀ i ∈ db, urlImpliesAt i := by
  induction h with
  | init => intro i hi; cases hi
  | step op hprev ih =>
    cases op with
    | create body newId =>
      show ∀ i ∈ (insightsPOST body newId _).2, urlImpliesAt i
      by_cases hb : body.coreInsight.isEmpty = true
      · simpa [insightsPOST, hb] using ih
      · have hb' : body.coreInsight.isEmpty = false := by simpa using hb
        intro i hi
        simp only [insightsPOST, hb', Bool.false_eq_true, if_false] at hi
        rcases List.mem_append.mp hi with hold | hnew
        · exact ih i hold
        · rcases List.mem_singleton.mp hnew with rfl
          intro hcontra
          simp at hcontra
    | edit body =>
      show ∀ i ∈ insightsEditPATCH body _, urlImpliesAt i
      unfold insightsEditPATCH
      by_cases hb : body.id.isEmpty = true
      · simpa [hb] using ih
      · have hb' : body.id.isEmpty = false := by simpa using hb
        rw [hb']
        simp only [Bool.false_eq_true, if_false]
        exact urlImpliesAt_map _ ih
          (urlImpliesAt_condSkip body.id
            (fun j => { j with coreInsight := (body.coreInsight).getD j.coreInsight
                               preview := (body.preview).getD j.preview })
            (fun _ => rfl) (fun _ => rfl))
    | publish cfg f id now =>
      exact urlImpliesAt_publishPATCH cfg f id now _ ih
    | format cfg f id =>
      show ∀ i ∈ (triggerFormatRun cfg f id _).2.1, urlImpliesAt i
      cases cfg with
      | none => exact ih
      | some u =>
        cases f with
        | netError =>
          apply urlImpliesAt_map _ _
            (urlImpliesAt_condSkip id (fun j => { j with status := "draft" })
              (fun _ => rfl) (fun _ => rfl))
          exact urlImpliesAt_map _ ih
            (urlImpliesAt_condSkip id (fun j => { j with status := "formatting" })
              (fun _ => rfl) (fun _ => rfl))
        | resp ok body =>
          cases ok with
          | true =>
            exact urlImpliesAt_map _ ih
              (urlImpliesAt_condSkip id (fun j => { j with status := "formatting" })
                (fun _ => rfl) (fun _ => rfl))
          | false =>
            apply urlImpliesAt_map _ _
              (urlImpliesAt_condSkip id (fun j => { j with status := "draft" })
                (fun _ => rfl) (fun _ => rfl))
            exact urlImpliesAt_map _ ih
              (urlImpliesAt_condSkip id (fun j => { j with status := "formatting" })
                (fun _ => rfl) (fun _ => rfl))
    | previewCb body =>
      show ∀ i ∈ previewPOST body _, urlImpliesAt i
      unfold previewPOST
      by_cases hb : (body.insightId.isEmpty || body.preview.isEmpty || body.platform.isEmpty) = true
      · simpa [hb] using ih
      · have hb' : (body.insightId.isEmpty || body.preview.isEmpty || body.platform.isEmpty) = false := by
          simpa using hb
        rw [hb']
        simp only [Bool.false_eq_true, if_false]
        cases hfind : findInsight _ body.insightId with
        | none => exact ih
        | some ins =>
          exact urlImpliesAt_map _ ih
            (urlImpliesAt_condSkip body.insightId
              (fun j => { j with preview := some body.preview
                                 previewPlatform := some body.platform
                                 status := "previewing" })
              (fun _ => rfl) (fun _ => rfl))
    | confirm body now =>
      show ∀ i ∈ (confirmPOST body now _).2, urlImpliesAt i
      unfold confirmPOST
      by_cases hb : (body.insightId.isEmpty || body.status.isEmpty) = true
      · simpa [hb] using ih
      · have hb' : (body.insightId.isEmpty || body.status.isEmpty) = false := by simpa using hb
        rw [hb']
        simp only [Bool.false_eq_true, if_false]
        cases hfind : findInsight _ body.insightId with
        | none => exact ih
        | some ins =>
          by_cases hsucc : (body.status == "success") = true
          · rw [if_pos hsucc]
            apply urlImpliesAt_map _ ih
            intro i h
            by_cases hc : (i.id == body.insightId) = true
            · rw [if_pos hc]
              intro _
              rfl
            · rw [if_neg hc]
              exact h
          · rw [if_neg hsucc]
            exact urlImpliesAt_map _ ih
              (urlImpliesAt_condSkip body.insightId
                (fun j => { j with status := "draft", preview := none })
                (fun _ => rfl) (fun _ => rfl))
    | remove id =>
      show ∀ i ∈ insightsDELETE id _, urlImpliesAt i
      unfold insightsDELETE
      by_cases hb : id.isEmpty = true
      · simpa [hb] using ih
      · have hb' : id.isEmpty = false := by simpa using hb
        rw [hb']
        simp only [Bool.false_eq_true, if_false]
        intro i hi
        exact ih i (List.mem_of_mem_filter hi)

/-- C9 amended witness: the create-then-confirm-with-URL trace is
reachable and every record in it satisfies the one-way invariant. -/
theorem reachable_publishedUrl_implies_publishedAt_witness :
    ReachableIns confirmWithUrlState
    ∧ (∀ i ∈ confirmWithUrlState, urlImpliesAt i) :=
  ⟨ReachableIns.step _ (ReachableIns.step _ ReachableIns.init),
   reachable_publishedUrl_implies_publishedAt
     (ReachableIns.step _ (ReachableIns.step _ ReachableIns.init))⟩

/-- C10 witness: creating an Insight from core text alone defaults both
preview fields and passes the publish precondition. -/
theorem insight_creation_defaults_witness :
    (({ coreInsight := "core text", preview := "",
        previewPlatform := "" } : InsightCreateBody).coreInsight.isEmpty = false)
    ∧ optTruthy (insightCreatedRecord
        { coreInsight := "core text", preview := "", previewPlatform := "" } "i9").preview = true
    ∧ publishPrecondOK (insightCreatedRecord
        { coreInsight := "core text", preview := "", previewPlatform := "" } "i9") = true :=
  ⟨by decide,
   (insight_creation_defaults_satisfy_publish_precondition _ "i9" [] (by decide)).2.2.1,
   (insight_creation_defaults_satisfy_publish_precondition
     { coreInsight := "core text", preview := "", previewPlatform := "" } "i9" []
     (by decide)).2.2.2.2.2.2⟩

end CorePerigee
